/-
Verification of the telegram-mcp-server repository.

This file gives a shallow embedding, in Lean 4, of the parts of the
repository that the specification's claims are about:

* `normalizeChannelId` (telegram-client.js) — the peer codec;
* the `messages` archive table with its `INSERT OR IGNORE` semantics
  (`message-sync-service.js`, `_initDatabase` / `insertMessagesTx`);
* the sync worker: `_syncNewerMessages`, `_backfillHistory`,
  `_processJob`, the `processQueue` loop and its error handler;
* `addJob` (the upsert behind the `scheduleMessageSync` tool);
* `ensureSession` of the streamable HTTP transport host;
* the `getChannelMessages` tool of the MCP server.

JavaScript constructs are embedded explicitly: machine numbers are
modelled as exact integers (`Int`), the falsy coercions `x || y` and the
nullish coalescing `x ?? y` are embedded as explicit functions on
`Option Int`, fallible code returns an error-carrying result type, and
stateful code is explicit state passing.  The external Telegram gateway
is modelled as data (a fixed message history), and the regular-expression
engine used by the tool layer (a host-language library in the source) is
a parameter of the embedding.
-/
import Mathlib

namespace TelegramMcp

/-! ## JavaScript value helpers

`jsOrNullInt` embeds the JS expression `x || null` on a nullable number:
`0` is falsy and collapses to `null`.  `jsNullish` embeds `x ?? y`.
`jsOrDefaultInt` embeds `x || d` for a non-nullable number slot. -/

def jsOrNullInt (o : Option Int) : Option Int :=
  match o with
  | some v => if v = 0 then none else some v
  | none => none

def jsNullish (a b : Option Int) : Option Int :=
  match a with
  | some x => some x
  | none => b

def jsOrDefaultInt (v d : Int) : Int :=
  if v = 0 then d else v

/-! ## Decimal strings

The source turns numbers into strings with JS `String(n)` and template
literals, and parses digit runs with `Number(...)`.  We embed decimal
printing from scratch, via `Nat.digits`, so that round-trip facts are
provable: `decimalStringOfNat n` is the usual base-10, most-significant-
digit-first decimal numeral of `n`. -/

def digitChar (d : Nat) : Char := Char.ofNat (48 + d)

def digitVal (c : Char) : Nat := c.toNat - 48

/-- Horner evaluation of a big-endian list of digit characters, as JS
`Number` does on a digit string. -/
def digitsVal (l : List Char) : Nat :=
  l.foldl (fun a c => 10 * a + digitVal c) 0

/-- Little-endian base-10 digits, computed with explicit fuel so that it
evaluates by kernel reduction; proved equal to `Nat.digits 10` below. -/
def decDigitsAux : Nat → Nat → List Nat
  | 0, _ => []
  | Nat.succ f, n => if n = 0 then [] else n % 10 :: decDigitsAux f (n / 10)

def natDecDigits (n : Nat) : List Nat := decDigitsAux n n

def decimalStringOfNat (n : Nat) : String :=
  if n = 0 then "0" else ⟨((natDecDigits n).map digitChar).reverse⟩

def decimalStringOfInt (n : Int) : String :=
  if n < 0 then "-" ++ decimalStringOfNat n.natAbs else decimalStringOfNat n.natAbs

/-! ## The peer codec: `normalizeChannelId` (telegram-client.js)

```js
export function normalizeChannelId(channelId) {
  if (typeof channelId === 'number') { return channelId; }
  if (typeof channelId === 'bigint') { return Number(channelId); }
  if (typeof channelId === 'string') {
    const trimmed = channelId.trim();
    if (/^-?\d+$/.test(trimmed)) {
      const numeric = Number(trimmed);
      if (!Number.isNaN(numeric)) { return numeric; }
    }
    return trimmed;
  }
  throw new Error('Invalid channel ID provided');
}
```

JS numbers are embedded as `JSNum` (an exact integer or `NaN`); inputs
of any other runtime type (`null`, `undefined`, objects, ...) are the
`other` constructor, the only ones that reach the `throw`. -/

inductive JSNum where
  | nan : JSNum
  | int (n : Int) : JSNum
deriving DecidableEq, Repr

inductive ChannelIdInput where
  | num (x : JSNum) : ChannelIdInput
  | bigint (n : Int) : ChannelIdInput
  | str (s : String) : ChannelIdInput
  | other : ChannelIdInput
deriving DecidableEq, Repr

inductive PeerRef where
  | num (x : JSNum) : PeerRef
  | str (s : String) : PeerRef
deriving DecidableEq, Repr

inductive NormalizeResult where
  | ok (r : PeerRef) : NormalizeResult
  | err (msg : String) : NormalizeResult
deriving DecidableEq, Repr

/-- The whitespace characters removed by JS `String.prototype.trim`
(restricted to the ASCII range; the claims only involve ASCII input). -/
def isJsSpace (c : Char) : Bool :=
  c = ' ' || c = '\t' || c = '\n' || c = '\r' || c = '\x0b' || c = '\x0c'

def trimChars (l : List Char) : List Char :=
  ((l.dropWhile isJsSpace).reverse.dropWhile isJsSpace).reverse

/-- Embedding of JS `channelId.trim()`. -/
def jsTrim (s : String) : String := ⟨trimChars s.data⟩

/-- Embedding of the regex test `/^-?\d+$/` on a character list: an
optional leading minus sign followed by one or more digits. -/
def isIntegerChars : List Char → Bool
  | [] => false
  | c :: cs =>
      if c = '-' then !cs.isEmpty && cs.all Char.isDigit
      else c.isDigit && cs.all Char.isDigit

/-- Embedding of the regex test `/^-?\d+$/.test(trimmed)`. -/
def isIntegerString (s : String) : Bool := isIntegerChars s.data

/-- The value of a digit list with optional leading minus sign. -/
def parseIntChars : List Char → Int
  | [] => 0
  | c :: cs => if c = '-' then -(digitsVal cs : Int) else (digitsVal (c :: cs) : Int)

/-- The value `Number(trimmed)` takes on a string accepted by
`/^-?\d+$/` (exact-integer model of the JS number). -/
def parseIntString (s : String) : Int := parseIntChars s.data

def normalizeChannelId : ChannelIdInput → NormalizeResult
  | ChannelIdInput.num x => NormalizeResult.ok (PeerRef.num x)
  | ChannelIdInput.bigint n => NormalizeResult.ok (PeerRef.num (JSNum.int n))
  | ChannelIdInput.str s =>
      let trimmed := jsTrim s
      if isIntegerString trimmed then
        NormalizeResult.ok (PeerRef.num (JSNum.int (parseIntString trimmed)))
      else
        NormalizeResult.ok (PeerRef.str trimmed)
  | ChannelIdInput.other => NormalizeResult.err "Invalid channel ID provided"

/-- JS `String(...)` applied to a peer reference, as `addJob` does with
`String(normalizeChannelId(channelId))`. -/
def peerKeyString : PeerRef → String
  | PeerRef.num JSNum.nan => "NaN"
  | PeerRef.num (JSNum.int n) => decimalStringOfInt n
  | PeerRef.str s => s

/-! ## The archive: the `messages` table (message-sync-service.js)

The table has a UNIQUE constraint on (`channel_id`, `message_id`) and is
written only through

```js
INSERT OR IGNORE INTO messages (channel_id, message_id, date, from_id, text, raw_json) ...
```

wrapped in `insertMessagesTx`, a transaction inserting a list of records
in order.  We model the table as the list of its rows in insertion
order; `INSERT OR IGNORE` appends unless the key is already present. -/

structure MessageRecord where
  channel_id : String
  message_id : Int
  date : Option Int
  from_id : Option String
  text : Option String
  raw_json : String
deriving DecidableEq, Repr

def hasKey (t : List MessageRecord) (cid : String) (mid : Int) : Bool :=
  t.any (fun r => r.channel_id == cid && r.message_id == mid)

def insertMessage (t : List MessageRecord) (r : MessageRecord) : List MessageRecord :=
  if hasKey t r.channel_id r.message_id then t else t ++ [r]

def insertMessagesTx (t : List MessageRecord) (rs : List MessageRecord) : List MessageRecord :=
  rs.foldl insertMessage t

/-- `_countMessages`: `SELECT COUNT(*) FROM messages WHERE channel_id = ?`. -/
def countMessages (t : List MessageRecord) (cid : String) : Nat :=
  (t.filter (fun r => r.channel_id == cid)).length

/-- The `raw_json` stored under a (`channel_id`, `message_id`) key, if any. -/
def rawJsonFor (t : List MessageRecord) (cid : String) (mid : Int) : Option String :=
  (t.find? (fun r => r.channel_id == cid && r.message_id == mid)).map
    (fun r => r.raw_json)

/-! ## Job rows and the flood-wait error handler

The `jobs` table columns that the claims are about, one row per channel.
Timestamps are modelled as abstract ticks (`Nat`). -/

inductive JobStatus where
  | pending : JobStatus
  | in_progress : JobStatus
  | idle : JobStatus
  | error : JobStatus
deriving DecidableEq, Repr

structure Job where
  id : Nat
  channel_id : String
  peer_title : Option String
  peer_type : Option String
  status : JobStatus
  last_message_id : Int
  oldest_message_id : Option Int
  target_message_count : Int
  message_count : Int
  last_synced_at : Option Nat
  created_at : Nat
  updated_at : Nat
  error : Option String
deriving DecidableEq, Repr

/-! `_processJob`'s catch block:

```js
const waitMatch = /wait of (\d+) seconds is required/i.exec(error.message || "");
if (waitMatch) {
  const waitSeconds = Number(waitMatch[1]);
  UPDATE jobs SET status = 'pending', error = `Rate limited, waiting (waitSeconds)s` ...
  await delay(waitSeconds * 1000);
} else {
  this._markJobError(job.id, error);   // status = 'error', error = error.message
}
```

We embed the regex: case-insensitively (by lowercasing the subject, the
pattern being lowercase), find the first position where the literal
"wait of " is followed by a non-empty maximal digit run followed by the
literal " seconds is required"; the captured group is the digit run. -/

/-- Maximal digit prefix of a character list, and the remainder. -/
def digitSpan : List Char → List Char × List Char
  | [] => ([], [])
  | c :: rest =>
      if c.isDigit then
        let p := digitSpan rest
        (c :: p.1, p.2)
      else ([], c :: rest)

def matchFloodAt (l : List Char) : Option Nat :=
  if ("wait of ".data).isPrefixOf l then
    let rest := l.drop 8
    let p := digitSpan rest
    if p.1.isEmpty then none
    else if (" seconds is required".data).isPrefixOf p.2 then some (digitsVal p.1)
    else none
  else none

def findFlood : List Char → Option Nat
  | [] => none
  | c :: rest =>
      match matchFloodAt (c :: rest) with
      | some n => some n
      | none => findFlood rest

/-- ASCII lowercasing of one character (what the i-flag needs on the
claims' ASCII inputs). -/
def lowerChar (c : Char) : Char :=
  if 'A' ≤ c ∧ c ≤ 'Z' then Char.ofNat (c.toNat + 32) else c

/-- The parsed wait time of `/wait of (\d+) seconds is required/i` on an
error message, when the regex matches. -/
def floodWaitSeconds (msg : String) : Option Nat :=
  findFlood (msg.data.map lowerChar)

/-- The catch block of `_processJob`: how a thrown error updates the job
row.  (`now` models CURRENT_TIMESTAMP.) -/
def handleJobError (job : Job) (errMsg : String) (now : Nat) : Job :=
  match floodWaitSeconds errMsg with
  | some s =>
      { job with status := JobStatus.pending,
                 error := some ("Rate limited, waiting " ++ decimalStringOfNat s ++ "s"),
                 updated_at := now }
  | none =>
      { job with status := JobStatus.error, error := some errMsg, updated_at := now }

/-! ## The gateway (telegram-client.js), as data

`_serializeMessage` always produces `id : number`, `date : number|null`,
`text : string` (possibly empty), `from_id : string` ("unknown" when no
sender).  The worker and the tools consume only these fields, so a
gateway message is embedded as such a record.

A channel's history on the Telegram side is a list of serialized
messages, newest first (the order `iterHistory` yields with
`reverse: false`).  `getMessagesByChannelId(channelId, limit, {minId})`
yields up to `limit` messages with id strictly above `minId`;
`iterHistory` with `offset: {id}` yields messages with id strictly below
the offset. -/

structure SerializedMessage where
  id : Int
  date : Option Int
  from_id : String
  text : String
deriving DecidableEq, Repr

/-- Models `JSON.stringify(msg)` on a serialized message: some injective
rendering; its exact shape is irrelevant to the claims. -/
def rawJsonOf (m : SerializedMessage) : String :=
  toString m.id ++ "|" ++ toString m.date ++ "|" ++ m.from_id ++ "|" ++ m.text

structure Gateway where
  history : List SerializedMessage
  peerTitle : String
  peerType : String
deriving Repr

/-- `getMessagesByChannelId(..., batchSize, { minId })`: up to `limit`
messages newer than `minId`, newest first. -/
def fetchNewer (g : Gateway) (limit : Nat) (minId : Int) : List SerializedMessage :=
  (g.history.filter (fun m => minId < m.id)).take limit

/-- `iterHistory(peer, { limit, offset: { id: offsetId } })`: up to
`limit` messages older than `offsetId`, newest first. -/
def fetchOlder (g : Gateway) (limit : Nat) (offsetId : Int) : List SerializedMessage :=
  (g.history.filter (fun m => m.id < offsetId)).take limit

/-- The record built from a serialized message before insertion
(`_syncNewerMessages` / `_backfillHistory` build identical records). -/
def recordOf (cid : String) (m : SerializedMessage) : MessageRecord :=
  { channel_id := cid, message_id := m.id, date := m.date,
    from_id := some m.from_id, text := some m.text, raw_json := rawJsonOf m }

/-! ## Phase A: `_syncNewerMessages` -/

structure NewerDetails where
  peerTitle : String
  peerType : String
  lastMessageId : Int
  oldestMessageId : Option Int
  totalMessages : Int
  targetCount : Int
  hasMoreNewer : Bool
deriving DecidableEq, Repr

def syncNewerMessages (g : Gateway) (batchSize : Nat) (db : List MessageRecord)
    (job : Job) : List MessageRecord × NewerDetails :=
  let minId := job.last_message_id
  let fetched := fetchNewer g batchSize minId
  let newMessages :=
    List.insertionSort (fun a b => a.id ≤ b.id) (fetched.filter (fun m => minId < m.id))
  let oldest0 := jsOrNullInt job.oldest_message_id
  if hne : newMessages = [] then
    (db, { peerTitle := g.peerTitle, peerType := g.peerType,
           lastMessageId := job.last_message_id, oldestMessageId := oldest0,
           totalMessages := (countMessages db job.channel_id : Int),
           targetCount := jsOrDefaultInt job.target_message_count 1000,
           hasMoreNewer := decide (batchSize ≤ newMessages.length) })
  else
    let records := newMessages.map (recordOf job.channel_id)
    let db2 := insertMessagesTx db records
    let lastId := (newMessages.getLast hne).id
    let firstId := (newMessages.head hne).id
    let oldest1 :=
      match oldest0 with
      | some v => some (min v firstId)
      | none => some firstId
    (db2, { peerTitle := g.peerTitle, peerType := g.peerType,
            lastMessageId := lastId, oldestMessageId := oldest1,
            totalMessages := (countMessages db2 job.channel_id : Int),
            targetCount := jsOrDefaultInt job.target_message_count 1000,
            hasMoreNewer := decide (batchSize ≤ newMessages.length) })

/-! ## Phase B: `_backfillHistory`

The `while (total < targetCount)` loop, embedded with explicit fuel (the
source loop terminates because `total` grows or a break fires; fuel is
always taken large enough that it is never exhausted in the concrete
runs).  `requests` counts the history requests issued (one per created
`iterHistory` iterator, issued even when the chunk comes back empty). -/

structure BFState where
  db : List MessageRecord
  total : Int
  currentOldest : Option Int
  insertedCount : Int
  nextOffsetId : Int
  requests : Nat
deriving Repr

/-- One per-message step of the `for await` body: the truthiness-guarded
`currentOldest = currentOldest ? Math.min(currentOldest, id) : id`. -/
def updOldest (o : Option Int) (i : Int) : Option Int :=
  match o with
  | some v => if v = 0 then some i else some (min v i)
  | none => some i

def chunkLowest (chunk : List SerializedMessage) : Option Int :=
  chunk.foldl
    (fun o m => match o with
      | none => some m.id
      | some x => some (min x m.id)) none

def backfillLoop (g : Gateway) (batchSize : Nat) (cid : String) (target : Int) :
    Nat → BFState → BFState
  | 0, s => s
  | Nat.succ fuel, s =>
      if s.total < target then
        -- `if (!nextOffsetId || nextOffsetId <= 1) break;` (0 is falsy and ≤ 1)
        if s.nextOffsetId ≤ 1 then s
        else
          let chunkLimit := min (batchSize : Int) (target - s.total)
          let chunk := fetchOlder g chunkLimit.toNat s.nextOffsetId
          let s1 := { s with requests := s.requests + 1 }
          if chunk = [] then s1
          else
            let records := chunk.map (recordOf cid)
            let s2 : BFState :=
              { db := insertMessagesTx s1.db records,
                total := s1.total + (chunk.length : Int),
                currentOldest := chunk.foldl (fun o m => updOldest o m.id) s1.currentOldest,
                insertedCount := s1.insertedCount + (chunk.length : Int),
                nextOffsetId := (chunkLowest chunk).getD s1.nextOffsetId,
                requests := s1.requests }
            if target ≤ s2.total then s2
            else backfillLoop g batchSize cid target fuel s2
      else s

structure BackfillResult where
  finalCount : Int
  oldestMessageId : Option Int
  hasMoreOlder : Bool
  insertedCount : Int
deriving DecidableEq, Repr

def backfillHistory (g : Gateway) (batchSize bfFuel : Nat) (db : List MessageRecord)
    (job : Job) (currentCount targetCount newestMessageId : Int) :
    List MessageRecord × BackfillResult × Nat :=
  if targetCount ≤ currentCount then
    (db, { finalCount := currentCount,
           oldestMessageId := job.oldest_message_id,   -- job.oldest_message_id ?? null
           hasMoreOlder := false, insertedCount := 0 }, 0)
  else
    let s0 : BFState :=
      { db := db, total := currentCount, currentOldest := job.oldest_message_id,
        insertedCount := 0,
        nextOffsetId := job.oldest_message_id.getD newestMessageId,
        requests := 0 }
    let s := backfillLoop g batchSize job.channel_id targetCount bfFuel s0
    (s.db, { finalCount := (countMessages s.db job.channel_id : Int),
             oldestMessageId := s.currentOldest,
             hasMoreOlder := decide (0 < s.insertedCount) && decide (s.total < targetCount),
             insertedCount := s.insertedCount }, s.requests)

/-! ## `_processJob` (success path) and the worker loop

A `RequestEvent` records one history request together with the job row's
cached `message_count` at the moment the job was picked up (the row is
only rewritten at finalize time). -/

structure RequestEvent where
  countAt : Int
deriving DecidableEq, Repr

structure SyncResult where
  db : List MessageRecord
  job : Job
  trace : List RequestEvent
deriving Repr

def processJob (g : Gateway) (batchSize bfFuel now : Nat) (db : List MessageRecord)
    (job : Job) : SyncResult :=
  let jobIP := { job with status := JobStatus.in_progress, updated_at := now }
  let a := syncNewerMessages g batchSize db jobIP
  let nd := a.2
  let b := backfillHistory g batchSize bfFuel a.1 jobIP nd.totalMessages nd.targetCount
             nd.lastMessageId
  let br := b.2.1
  let finalOldest := jsNullish br.oldestMessageId
                       (jsNullish nd.oldestMessageId jobIP.oldest_message_id)
  let shouldContinue := nd.hasMoreNewer || br.hasMoreOlder
  let finalStatus := if shouldContinue then JobStatus.pending else JobStatus.idle
  { db := b.1,
    job := { jobIP with
             status := finalStatus,
             peer_title := some nd.peerTitle, peer_type := some nd.peerType,
             last_message_id := nd.lastMessageId,
             oldest_message_id := finalOldest,
             message_count := br.finalCount,
             target_message_count := nd.targetCount,
             last_synced_at := some now, updated_at := now, error := none },
    trace := List.replicate (1 + b.2.2) { countAt := job.message_count } }

/-- `processQueue` for a single-row jobs table: keep picking the job
while its status is pending or in_progress (the `_getNextJob` filter),
processing it each time. -/
def runWorker (g : Gateway) (batchSize bfFuel : Nat) :
    Nat → List MessageRecord → Job → SyncResult
  | 0, db, job => { db := db, job := job, trace := [] }
  | Nat.succ fuel, db, job =>
      if job.status = JobStatus.pending ∨ job.status = JobStatus.in_progress then
        let r := processJob g batchSize bfFuel 0 db job
        let r2 := runWorker g batchSize bfFuel fuel r.db r.job
        { db := r2.db, job := r2.job, trace := r.trace ++ r2.trace }
      else { db := db, job := job, trace := [] }

/-! ## `addJob` — the upsert behind `scheduleMessageSync`

```js
addJob(channelId, options = {}) {
  const normalizedId = String(normalizeChannelId(channelId));
  const target = options.depth && options.depth > 0 ? Number(options.depth) : 1000;
  INSERT INTO jobs (channel_id, status, error, target_message_count, updated_at)
  VALUES (?, 'pending', NULL, ?, CURRENT_TIMESTAMP)
  ON CONFLICT(channel_id) DO UPDATE SET
    status='pending', error=NULL, target_message_count=?, updated_at=CURRENT_TIMESTAMP
  RETURNING *;
}
```

The jobs table is the list of its rows; `freshId` models the
autoincrement id handed to a newly inserted row. -/

def depthTarget (depth : Option Int) : Int :=
  match depth with
  | some d => if 0 < d then d else 1000   -- `options.depth && options.depth > 0`
  | none => 1000

def addJob (jobs : List Job) (input : ChannelIdInput) (depth : Option Int)
    (now freshId : Nat) : Except String (List Job × Job) :=
  match normalizeChannelId input with
  | NormalizeResult.err m => Except.error m
  | NormalizeResult.ok r =>
    let key := peerKeyString r
    let target := depthTarget depth
    match jobs.find? (fun j => j.channel_id == key) with
    | some j =>
        let j2 := { j with status := JobStatus.pending, error := none,
                           target_message_count := target, updated_at := now }
        Except.ok (jobs.map (fun x => if x.channel_id == key then j2 else x), j2)
    | none =>
        let newJob : Job :=
          { id := freshId, channel_id := key, peer_title := none, peer_type := none,
            status := JobStatus.pending, last_message_id := 0, oldest_message_id := none,
            target_message_count := target, message_count := 0, last_synced_at := none,
            created_at := now, updated_at := now, error := none }
        Except.ok (jobs ++ [newJob], newJob)

/-! ## `ensureSession` — the transport host's session gate (POST /mcp)

```js
const sessionId = req.headers["mcp-session-id"];
if (sessionId && typeof sessionId === "string") {
  const existing = sessions.get(sessionId);
  if (existing) { return existing; }
  res.writeHead(404).end({ error: { code: -32001, message: "Session not found" } });
  return null;
}
if (!isInitializeRequest(body)) {
  res.writeHead(400).end({ error: { code: -32000,
    message: "Bad Request: No valid session ID provided" } });
  return null;
}
// ... create a fresh transport + server, generate a UUID session id ...
```

The header value is `none` when absent and `some s` when present with
value `s` (Node collapses duplicate headers into one string); note the
JS truthiness check, under which `some ""` falls through to the
no-session branch. -/

structure McpError where
  httpStatus : Nat
  code : Int
  message : String
deriving DecidableEq, Repr

inductive SessionOutcome where
  | routed (sid : String) : SessionOutcome
  | newSession : SessionOutcome
  | rejected (e : McpError) : SessionOutcome
deriving DecidableEq, Repr

def sessionNotFound : McpError :=
  { httpStatus := 404, code := -32001, message := "Session not found" }

def badRequestNoSession : McpError :=
  { httpStatus := 400, code := -32000,
    message := "Bad Request: No valid session ID provided" }

/-- The `sessionId && typeof sessionId === "string"` guard: the header
value usable as a session id, if any. -/
def usableSessionHeader : Option String → Option String
  | some s => if s = "" then none else some s
  | none => none

def ensureSession (sessions : List String) (header : Option String)
    (isInitialize : Bool) : SessionOutcome :=
  match usableSessionHeader header with
  | some sid =>
      if sessions.contains sid then SessionOutcome.routed sid
      else SessionOutcome.rejected sessionNotFound
  | none =>
      if isInitialize then SessionOutcome.newSession
      else SessionOutcome.rejected badRequestNoSession

/-! ## The `getChannelMessages` tool (streamable HTTP server)

```js
const { peerTitle, messages } = await telegramClient.getMessagesByChannelId(channelId, limit ?? 100);
let formatted = messages.map((msg) => ({
  id: msg.id,
  date: msg.date ? new Date(msg.date * 1000).toISOString() : "unknown",
  text: msg.text ?? msg.message ?? "",
  from_id: msg.from_id ?? "unknown",
}));
if (filterPattern) {
  try {
    const regex = new RegExp(filterPattern);
    formatted = formatted.filter((msg) => msg.text && regex.test(msg.text));
  } catch (error) {
    throw new Error(`Invalid filterPattern: ` + error.message);
  }
}
return { peerTitle, totalFetched: messages.length, returned: formatted.length, messages: formatted };
```

The regular-expression engine is the host library's; the embedding takes
it as a parameter `compile`, mapping a pattern either to a matcher
(`test`) or to a construction error. -/

structure FormattedMessage where
  id : Int
  date : String
  text : String
  from_id : String
deriving DecidableEq, Repr

inductive ToolOutcome where
  | ok (peerTitle : String) (totalFetched returned : Nat)
       (messages : List FormattedMessage) : ToolOutcome
  | failure (msg : String) : ToolOutcome
deriving DecidableEq, Repr

/-- Models `new Date(d * 1000).toISOString()`; its exact rendering is
irrelevant to the claims. -/
def dateIso (d : Int) : String := "date:" ++ toString d

def formatMessage (m : SerializedMessage) : FormattedMessage :=
  { id := m.id,
    date := match m.date with
            | some d => if d = 0 then "unknown" else dateIso d   -- `msg.date ?` truthiness
            | none => "unknown",
    text := m.text, from_id := m.from_id }

def getChannelMessagesTool (compile : String → Except String (String → Bool))
    (peerTitle : String) (fetched : List SerializedMessage)
    (filterPattern : Option String) : ToolOutcome :=
  let formatted := fetched.map formatMessage
  match filterPattern with
  | none => ToolOutcome.ok peerTitle fetched.length formatted.length formatted
  | some p =>
      match compile p with
      | Except.error e => ToolOutcome.failure ("Invalid filterPattern: " ++ e)
      | Except.ok matcher =>
          let filtered := formatted.filter (fun fm => !(fm.text == "") && matcher fm.text)
          ToolOutcome.ok peerTitle fetched.length filtered.length filtered

/-! ## Concurrency of `processQueue` / `resumePendingJobs`

```js
async processQueue() {
  if (this.processing) { return; }
  if (this.stopRequested) { return; }
  this.processing = true;
  try {
    while (true) {
      if (this.stopRequested) { break; }
      const job = this._getNextJob();
      if (!job) { break; }
      await this._processJob(job);
      await delay(this.interJobDelayMs);
    }
  } finally { this.processing = false; }
}
```

JavaScript is single-threaded with run-to-completion between `await`
points, so the guard `if (processing) return; ...; processing = true`
executes atomically.  We model any number of concurrent invocations as
tasks of a transition system: `enterRun` is that atomic synchronous
prelude when the guard passes, `enterGuarded` the early return when it
does not, `readQueue` one `_getNextJob` call of the loop (each loop
iteration, including any `_processJob` run, happens in the unique task
holding the flag), and `exitLoop` the `finally` release. -/

inductive TaskPhase where
  | notStarted : TaskPhase
  | looping : TaskPhase
  | done : TaskPhase
deriving DecidableEq, Repr

structure WorkerConfig where
  processing : Bool
  stopRequested : Bool
  phase : Nat → TaskPhase
  reads : Nat → Nat
  guarded : Nat → Bool

def workerInit : WorkerConfig :=
  { processing := false, stopRequested := false,
    phase := fun _ => TaskPhase.notStarted,
    reads := fun _ => 0, guarded := fun _ => false }

inductive WorkerStep : WorkerConfig → WorkerConfig → Prop where
  | enterRun (c : WorkerConfig) (i : Nat)
      (h1 : c.phase i = TaskPhase.notStarted)
      (h2 : c.processing = false) (h3 : c.stopRequested = false) :
      WorkerStep c { c with processing := true,
                            phase := Function.update c.phase i TaskPhase.looping }
  | enterGuarded (c : WorkerConfig) (i : Nat)
      (h1 : c.phase i = TaskPhase.notStarted)
      (h2 : c.processing = true ∨ c.stopRequested = true) :
      WorkerStep c { c with phase := Function.update c.phase i TaskPhase.done,
                            guarded := Function.update c.guarded i true }
  | readQueue (c : WorkerConfig) (i : Nat)
      (h1 : c.phase i = TaskPhase.looping) :
      WorkerStep c { c with reads := Function.update c.reads i (c.reads i + 1) }
  | exitLoop (c : WorkerConfig) (i : Nat)
      (h1 : c.phase i = TaskPhase.looping) :
      WorkerStep c { c with processing := false,
                            phase := Function.update c.phase i TaskPhase.done }
  | requestStop (c : WorkerConfig) :
      WorkerStep c { c with stopRequested := true }

def WorkerReachable (c : WorkerConfig) : Prop :=
  Relation.ReflTransGen WorkerStep workerInit c

/-! ## The concrete scenario of claim C1

Gateway history of 250 messages with ids 1..250 (newest first), job
scheduled with `scheduleMessageSync (channelId: 42, depth: 200)`,
batch size 100 (the server's configuration). -/

def c1History : List SerializedMessage :=
  (List.range 250).map (fun k => { id := (250 - k : Int), date := none,
                                   from_id := "u", text := "m" })

def c1Gateway : Gateway :=
  { history := c1History, peerTitle := "Chan", peerType := "channel" }

def dummyJob : Job :=
  { id := 0, channel_id := "", peer_title := none, peer_type := none,
    status := JobStatus.error, last_message_id := 0, oldest_message_id := none,
    target_message_count := 0, message_count := 0, last_synced_at := none,
    created_at := 0, updated_at := 0, error := none }

/-- The job row created by `scheduleMessageSync (channelId: 42, depth: 200)`
on an empty jobs table. -/
def c1Job : Job :=
  match addJob [] (ChannelIdInput.num (JSNum.int 42)) (some 200) 0 1 with
  | Except.ok p => p.2
  | Except.error _ => dummyJob

/-- The worker run to completion on the C1 scenario. -/
def c1Run : SyncResult := runWorker c1Gateway 100 400 5 [] c1Job

/-- The final job row predicted for the C1 scenario. -/
def c1Expected : Job :=
  { id := 1, channel_id := "42", peer_title := some "Chan", peer_type := some "channel",
    status := JobStatus.idle, last_message_id := 250, oldest_message_id := some 51,
    target_message_count := 200, message_count := 200, last_synced_at := some 0,
    created_at := 0, updated_at := 0, error := none }

/-! Concrete instances used by witness theorems. -/

def c3Gateway : Gateway :=
  { history := [{ id := 10, date := none, from_id := "u", text := "a" },
                { id := 7, date := none, from_id := "u", text := "b" }],
    peerTitle := "T", peerType := "chat" }

def c3Job : Job :=
  { id := 2, channel_id := "7", peer_title := none, peer_type := none,
    status := JobStatus.pending, last_message_id := 6, oldest_message_id := some 5,
    target_message_count := 3, message_count := 0, last_synced_at := none,
    created_at := 0, updated_at := 0, error := none }

def c4Record : MessageRecord :=
  { channel_id := "42", message_id := 1, date := none, from_id := none,
    text := none, raw_json := "r" }

def c8Config1 : WorkerConfig :=
  { workerInit with processing := true,
                    phase := Function.update workerInit.phase 0 TaskPhase.looping }

def c8Config2 : WorkerConfig :=
  { c8Config1 with phase := Function.update c8Config1.phase 1 TaskPhase.done,
                   guarded := Function.update c8Config1.guarded 1 true }

/-- A regex engine instance for the C9 scenario: the JS engine's
behavior on the single pattern `\d+` ("contains a digit"); every other
pattern is treated as failing to compile. -/
def c9Compile : String → Except String (String → Bool) :=
  fun p => if p = "\\d+" then Except.ok (fun t => t.data.any Char.isDigit)
           else Except.error "Invalid regular expression"

def c9Fetched : List SerializedMessage :=
  [{ id := 1, date := none, from_id := "u", text := "hello world" },
   { id := 2, date := none, from_id := "u", text := "abc123" },
   { id := 3, date := none, from_id := "u", text := "xyz" }]

def c10Job : Job :=
  { id := 3, channel_id := "42", peer_title := some "T", peer_type := some "channel",
    status := JobStatus.error, last_message_id := 7, oldest_message_id := some 3,
    target_message_count := 1000, message_count := 5, last_synced_at := some 4,
    created_at := 1, updated_at := 4, error := some "boom" }

/-! # Theorems -/

/-- Claim C4: archive insert idempotence.  For every table state and
every message record already present under its (channel_id, message_id)
key, running the insert transaction again with that record leaves the
messages table unchanged; in particular the channel's message count and
the stored raw_json under that key are the same before and after. -/
theorem archive_insert_idempotent (db : List MessageRecord) (r : MessageRecord)
    (h : hasKey db r.channel_id r.message_id = true) :
    insertMessagesTx db [r] = db ∧
    countMessages (insertMessagesTx db [r]) r.channel_id = countMessages db r.channel_id ∧
    rawJsonFor (insertMessagesTx db [r]) r.channel_id r.message_id
      = rawJsonFor db r.channel_id r.message_id := by
  have he : insertMessagesTx db [r] = db := by
    simp [insertMessagesTx, insertMessage, h]
  exact ⟨he, by rw [he], by rw [he]⟩

/-- Witness for C4 at a concrete table and record. -/
theorem archive_insert_idempotent_witness :
    insertMessagesTx [c4Record] [c4Record] = [c4Record] :=
  (archive_insert_idempotent [c4Record] c4Record (by decide)).1

set_option maxRecDepth 4000000 in
set_option maxHeartbeats 4000000 in
/-- Claim C1: backfill reaches the target and stops.  On a gateway
history with ids 1..250 and a job scheduled with depth 200 (batch size
100), the worker loop run to completion leaves the job idle with
message_count 200, last_message_id 250, oldest_message_id 51; the four
history requests of the run all happen while the job row's cached
message_count (0, then 101) is below the target, and re-running the
worker on the final state issues no request at all. -/
theorem backfill_reaches_target_and_stops :
    c1Run.job = c1Expected ∧
    c1Run.trace = [{ countAt := 0 }, { countAt := 0 },
                   { countAt := 101 }, { countAt := 101 }] ∧
    c1Run.trace.all (fun e => decide (e.countAt < 200)) = true ∧
    (runWorker c1Gateway 100 400 5 c1Run.db c1Run.job).trace = [] := by
  decide

/-- Counterexample to claim C6: the codec does not raise on empty
string, NaN, or mixed content — all three return normally (`ok`), the
string inputs coming back verbatim. -/
theorem peer_codec_failure_counterexample :
    normalizeChannelId (ChannelIdInput.str "") = NormalizeResult.ok (PeerRef.str "") ∧
    normalizeChannelId (ChannelIdInput.num JSNum.nan)
      = NormalizeResult.ok (PeerRef.num JSNum.nan) ∧
    normalizeChannelId (ChannelIdInput.str "abc123")
      = NormalizeResult.ok (PeerRef.str "abc123") := by
  decide

/-- Claim C6 amended: `normalizeChannelId` throws (the message of
`new Error('Invalid channel ID provided')`) exactly on inputs that are
neither a number, a bigint, nor a string; empty strings, NaN and mixed
digit/letter strings all return normally. -/
theorem peer_codec_failure_amended (i : ChannelIdInput) :
    normalizeChannelId i = NormalizeResult.err "Invalid channel ID provided"
      ↔ i = ChannelIdInput.other := by
  cases i with
  | num x => simp [normalizeChannelId]
  | bigint n => simp [normalizeChannelId]
  | str s =>
      simp only [normalizeChannelId]
      split <;> simp
  | other => simp [normalizeChannelId]

/-- Counterexample to claim C7: a POST /mcp carrying an `mcp-session-id`
header with the empty value — a header naming no live session — is
answered with code -32000, not -32001: the JS truthiness guard
`sessionId && typeof sessionId === "string"` treats the empty header
value like an absent header. -/
theorem session_binding_counterexample :
    ensureSession [] (some "") false = SessionOutcome.rejected badRequestNoSession ∧
    ensureSession [] (some "") false ≠ SessionOutcome.rejected sessionNotFound := by
  decide

/-- Claim C7 amended: a POST /mcp carrying a non-empty `mcp-session-id`
header value that names no live session is answered with JSON-RPC error
-32001 "Session not found"; a non-initialize POST whose header is absent
or empty is answered with -32000 "Bad Request: No valid session ID
provided". -/
theorem session_binding_amended :
    (∀ (sessions : List String) (s : String) (isInit : Bool),
       s ≠ "" → sessions.contains s = false →
       ensureSession sessions (some s) isInit = SessionOutcome.rejected sessionNotFound) ∧
    (∀ (sessions : List String) (header : Option String),
       usableSessionHeader header = none →
       ensureSession sessions header false = SessionOutcome.rejected badRequestNoSession) := by
  constructor
  · intro sessions s isInit hs hn
    have hmem : s ∉ sessions := by simpa using hn
    simp [ensureSession, usableSessionHeader, hs, hmem]
  · intro sessions header hu
    simp [ensureSession, hu]

/-- Witness for the amended C7 at concrete inputs. -/
theorem session_binding_amended_witness :
    ensureSession [] (some "abc") false = SessionOutcome.rejected sessionNotFound ∧
    ensureSession [] none false = SessionOutcome.rejected badRequestNoSession :=
  ⟨session_binding_amended.1 [] "abc" false (by decide) (by decide),
   session_binding_amended.2 [] none rfl⟩

/-- Counterexample to claim C2: an error whose message matches
FLOOD_WAIT_(d+) — here "FLOOD_WAIT_42" — is NOT treated as a flood
wait by the worker's catch block (whose only pattern is
`/wait of (d+) seconds is required/i`): the job is marked status
`error` with the raw message, not `pending` with a rate-limit text. -/
theorem floodwait_classification_counterexample :
    (handleJobError dummyJob "FLOOD_WAIT_42" 7).status = JobStatus.error ∧
    (handleJobError dummyJob "FLOOD_WAIT_42" 7).error = some "FLOOD_WAIT_42" ∧
    (handleJobError dummyJob "FLOOD_WAIT_42" 7).status ≠ JobStatus.pending := by
  decide

/-- Counterexample to claim C9: a gateway message with empty text is
excluded from the result even when the regex matches the empty string
(here the engine's matcher for a pattern such as `.*`, which matches
every string): the code filters with `msg.text && regex.test(msg.text)`,
so `returned` is 0 where the claim's "exactly those whose text matches"
demands 1. -/
theorem getChannelMessages_filter_counterexample :
    getChannelMessagesTool (fun _ => Except.ok (fun _ => true)) "T"
      [{ id := 1, date := none, from_id := "u", text := "" }] (some ".*")
      = ToolOutcome.ok "T" 1 0 [] := by
  decide

/-- Claim C10: re-scheduling preserves sync progress.  When `addJob`
hits an existing row (the ON CONFLICT branch), the returned row is the
old row with only `status` (to pending), `error` (to NULL),
`target_message_count` and `updated_at` replaced; every other column —
last_message_id, oldest_message_id, message_count, peer_title,
peer_type, last_synced_at, created_at, id, channel_id — keeps its
previous value. -/
theorem reschedule_preserves_progress (jobs : List Job) (input : ChannelIdInput)
    (depth : Option Int) (now freshId : Nat) (r : PeerRef) (j : Job)
    (hnorm : normalizeChannelId input = NormalizeResult.ok r)
    (hfind : jobs.find? (fun x => x.channel_id == peerKeyString r) = some j) :
    ∃ jobs2, addJob jobs input depth now freshId =
      Except.ok (jobs2, { j with status := JobStatus.pending, error := none,
                                 target_message_count := depthTarget depth,
                                 updated_at := now }) := by
  refine ⟨jobs.map (fun x => if x.channel_id == peerKeyString r
                             then { j with status := JobStatus.pending, error := none,
                                           target_message_count := depthTarget depth,
                                           updated_at := now }
                             else x), ?_⟩
  unfold addJob
  rw [hnorm]
  simp only [hfind]

/-- Witness for C10 at a concrete jobs table. -/
theorem reschedule_preserves_progress_witness :
    ∃ jobs2, addJob [c10Job] (ChannelIdInput.num (JSNum.int 42)) (some 500) 9 7 =
      Except.ok (jobs2, { c10Job with status := JobStatus.pending, error := none,
                                      target_message_count := depthTarget (some 500),
                                      updated_at := 9 }) :=
  reschedule_preserves_progress [c10Job] (ChannelIdInput.num (JSNum.int 42))
    (some 500) 9 7 (PeerRef.num (JSNum.int 42)) c10Job rfl (by decide)

/-! ### Decimal string toolkit -/

theorem decDigitsAux_eq_digits : ∀ (fuel n : Nat), n ≤ fuel →
    decDigitsAux fuel n = Nat.digits 10 n := by
  intro fuel
  induction fuel with
  | zero =>
      intro n hn
      have : n = 0 := Nat.le_zero.mp hn
      subst this
      simp [decDigitsAux]
  | succ f ih =>
      intro n hn
      by_cases h0 : n = 0
      · subst h0; simp [decDigitsAux]
      · have hdiv : n / 10 ≤ f := by
          have h1 : n / 10 < n := Nat.div_lt_self (Nat.pos_of_ne_zero h0) (by norm_num)
          omega
        rw [decDigitsAux, if_neg h0, ih (n / 10) hdiv,
          Nat.digits_def' (by norm_num : (1 : Nat) < 10) (Nat.pos_of_ne_zero h0)]

theorem natDecDigits_eq_digits (n : Nat) : natDecDigits n = Nat.digits 10 n :=
  decDigitsAux_eq_digits n n le_rfl

/-- The four character facts needed about a base-10 digit character. -/
theorem digitChar_facts {d : Nat} (h : d < 10) :
    (digitChar d).isDigit = true ∧ digitVal (digitChar d) = d ∧
    lowerChar (digitChar d) = digitChar d ∧ isJsSpace (digitChar d) = false ∧
    digitChar d ≠ '-' := by
  interval_cases d <;> exact ⟨by decide, by decide, by decide, by decide, by decide⟩

theorem digitsVal_append_singleton (l : List Char) (c : Char) :
    digitsVal (l ++ [c]) = 10 * digitsVal l + digitVal c := by
  simp [digitsVal, List.foldl_append]

theorem digitsVal_rev_map (L : List Nat) (h : ∀ d ∈ L, d < 10) :
    digitsVal ((L.map digitChar).reverse) = Nat.ofDigits 10 L := by
  induction L with
  | nil => simp [digitsVal]
  | cons d L ih =>
      simp only [List.map_cons, List.reverse_cons]
      rw [digitsVal_append_singleton,
        ih (fun x hx => h x (List.mem_cons_of_mem _ hx)),
        (digitChar_facts (h d (List.mem_cons_self _ _))).2.1, Nat.ofDigits_cons]
      ring

/-- The decimal numeral of a natural number: non-empty, made of digit
characters (which are not whitespace, not '-', and fixed by
lowercasing), and parsed back to the number by Horner evaluation. -/
theorem decimalStringOfNat_spec (n : Nat) :
    (decimalStringOfNat n).data ≠ [] ∧
    (∀ c ∈ (decimalStringOfNat n).data,
       c.isDigit = true ∧ lowerChar c = c ∧ isJsSpace c = false ∧ c ≠ '-') ∧
    digitsVal (decimalStringOfNat n).data = n := by
  by_cases h0 : n = 0
  · subst h0
    exact ⟨by decide, by decide, by decide⟩
  · have hlt : ∀ d ∈ Nat.digits 10 n, d < 10 :=
      fun d hd => Nat.digits_lt_base (by norm_num) hd
    have hmem : ∀ c ∈ ((Nat.digits 10 n).map digitChar).reverse,
        c.isDigit = true ∧ lowerChar c = c ∧ isJsSpace c = false ∧ c ≠ '-' := by
      intro c hc
      obtain ⟨d, hd, rfl⟩ := List.mem_map.mp (List.mem_reverse.mp hc)
      obtain ⟨h1, _, h3, h4, h5⟩ := digitChar_facts (hlt d hd)
      exact ⟨h1, h3, h4, h5⟩
    have hdata : (decimalStringOfNat n).data = ((Nat.digits 10 n).map digitChar).reverse := by
      simp [decimalStringOfNat, if_neg h0, natDecDigits_eq_digits]
    refine ⟨?_, ?_, ?_⟩
    · rw [hdata]
      simp [Nat.digits_ne_nil_iff_ne_zero.mpr h0]
    · rw [hdata]; exact hmem
    · rw [hdata, digitsVal_rev_map _ hlt, Nat.ofDigits_digits]

theorem dropWhile_eq_self_of (l : List Char) (p : Char → Bool)
    (h : ∀ c ∈ l, p c = false) : l.dropWhile p = l := by
  cases l with
  | nil => rfl
  | cons c cs => simp [List.dropWhile_cons, h c (List.mem_cons_self _ _)]

theorem trimChars_of_no_space (l : List Char) (h : ∀ c ∈ l, isJsSpace c = false) :
    trimChars l = l := by
  unfold trimChars
  rw [dropWhile_eq_self_of l _ h,
    dropWhile_eq_self_of l.reverse _ (fun c hc => h c (List.mem_reverse.mp hc)),
    List.reverse_reverse]

theorem decimalStringOfInt_data (n : Int) :
    (n < 0 ∧ (decimalStringOfInt n).data = '-' :: (decimalStringOfNat n.natAbs).data) ∨
    (0 ≤ n ∧ (decimalStringOfInt n).data = (decimalStringOfNat n.natAbs).data) := by
  by_cases hn : n < 0
  · left
    refine ⟨hn, ?_⟩
    simp [decimalStringOfInt, if_pos hn]
  · right
    refine ⟨by omega, ?_⟩
    simp [decimalStringOfInt, if_neg hn]

theorem jsTrim_decimal (n : Int) : jsTrim (decimalStringOfInt n) = decimalStringOfInt n := by
  obtain ⟨hn, hd⟩ | ⟨hn, hd⟩ := decimalStringOfInt_data n <;>
  · have hspec := (decimalStringOfNat_spec n.natAbs).2.1
    have hall : ∀ c ∈ (decimalStringOfInt n).data, isJsSpace c = false := by
      rw [hd]
      intro c hc
      first
      | (rcases List.mem_cons.mp hc with rfl | hc2
         · decide
         · exact (hspec c hc2).2.2.1)
      | exact (hspec c hc).2.2.1
    show String.mk (trimChars (decimalStringOfInt n).data) = decimalStringOfInt n
    rw [trimChars_of_no_space _ hall]

theorem isIntegerString_decimal (n : Int) :
    isIntegerString (decimalStringOfInt n) = true := by
  obtain ⟨hne, hspec, _⟩ := decimalStringOfNat_spec n.natAbs
  have hall : (decimalStringOfNat n.natAbs).data.all Char.isDigit = true :=
    List.all_eq_true.mpr (fun c hc => (hspec c hc).1)
  obtain ⟨hn, hd⟩ | ⟨hn, hd⟩ := decimalStringOfInt_data n
  · rw [isIntegerString, hd]
    cases hcase : (decimalStringOfNat n.natAbs).data with
    | nil => exact absurd hcase hne
    | cons c cs =>
        rw [hcase] at hall
        simp [isIntegerChars, hall]
  · rw [isIntegerString, hd]
    cases hcase : (decimalStringOfNat n.natAbs).data with
    | nil => exact absurd hcase hne
    | cons c cs =>
        have hcne : c ≠ '-' :=
          (hspec c (by rw [hcase]; exact List.mem_cons_self _ _)).2.2.2
        have hcdig : c.isDigit = true :=
          (hspec c (by rw [hcase]; exact List.mem_cons_self _ _)).1
        rw [hcase] at hall
        simp only [List.all_cons, Bool.and_eq_true] at hall
        simp [isIntegerChars, if_neg hcne, hcdig, hall.2]

theorem parseIntString_decimal (n : Int) :
    parseIntString (decimalStringOfInt n) = n := by
  obtain ⟨hne, hspec, hval⟩ := decimalStringOfNat_spec n.natAbs
  obtain ⟨hn, hd⟩ | ⟨hn, hd⟩ := decimalStringOfInt_data n
  · rw [parseIntString, hd]
    have h2 : parseIntChars ('-' :: (decimalStringOfNat n.natAbs).data)
        = -(digitsVal (decimalStringOfNat n.natAbs).data : Int) := by
      simp [parseIntChars]
    rw [h2, hval]
    omega
  · rw [parseIntString, hd]
    cases hcase : (decimalStringOfNat n.natAbs).data with
    | nil => exact absurd hcase hne
    | cons c cs =>
        have hcne : c ≠ '-' :=
          (hspec c (by rw [hcase]; exact List.mem_cons_self _ _)).2.2.2
        have h2 : parseIntChars (c :: cs) = (digitsVal (c :: cs) : Int) := by
          simp [parseIntChars, if_neg hcne]
        rw [h2, ← hcase, hval]
        omega

theorem dropWhile_append_at (m : List Char) :
    ∃ t, List.dropWhile isJsSpace (m ++ ['@']) = t ++ ['@'] := by
  induction m with
  | nil => exact ⟨[], by decide⟩
  | cons c m ih =>
      by_cases hc : isJsSpace c = true
      · simpa [List.dropWhile_cons, hc] using ih
      · exact ⟨c :: m, by simp [List.dropWhile_cons, hc]⟩

theorem trimChars_at (l : List Char) : ∃ t, trimChars ('@' :: l) = '@' :: t := by
  unfold trimChars
  have h1 : List.dropWhile isJsSpace ('@' :: l) = '@' :: l := by
    simp [List.dropWhile_cons, (by decide : isJsSpace '@' = false)]
  rw [h1, List.reverse_cons]
  obtain ⟨t, ht⟩ := dropWhile_append_at l.reverse
  rw [ht]
  exact ⟨t.reverse, by simp⟩

theorem isIntegerChars_at (x : List Char) : isIntegerChars ('@' :: x) = false := by
  simp [isIntegerChars, (by decide : ('@' : Char) ≠ '-'),
    (by decide : ('@' : Char).isDigit = false)]

/-- Counterexample to claim C5: prefixing "@" changes the codec's
output, and usernames are not lowercased — `normalizeChannelId` returns
non-numeric strings trimmed but otherwise verbatim. -/
theorem peer_codec_roundtrip_counterexample :
    normalizeChannelId (ChannelIdInput.str ("@" ++ "gamma"))
      ≠ normalizeChannelId (ChannelIdInput.str "gamma") ∧
    normalizeChannelId (ChannelIdInput.str "@Gamma")
      = NormalizeResult.ok (PeerRef.str "@Gamma") := by
  constructor
  · decide
  · decide

/-- Claim C5 amended: for every integer n the codec sends the decimal
string of n and n itself to the same peer reference (the integer n); a
username string with a leading "@" is returned trimmed but verbatim —
the "@" is kept and no lowercasing happens, so codec("@" + u) is the
trimmed "@" + u, not codec(u). -/
theorem peer_codec_roundtrip_amended :
    (∀ n : Int, normalizeChannelId (ChannelIdInput.str (decimalStringOfInt n))
       = normalizeChannelId (ChannelIdInput.num (JSNum.int n))) ∧
    (∀ u : String, normalizeChannelId (ChannelIdInput.str ("@" ++ u))
       = NormalizeResult.ok (PeerRef.str (jsTrim ("@" ++ u)))) := by
  constructor
  · intro n
    show (if isIntegerString (jsTrim (decimalStringOfInt n)) then _ else _) = _
    rw [jsTrim_decimal, isIntegerString_decimal, if_pos rfl, parseIntString_decimal]
    rfl
  · intro u
    have hdata : ("@" ++ u).data = '@' :: u.data := by
      rw [String.data_append]
      rfl
    obtain ⟨t, ht⟩ := trimChars_at u.data
    have htrim : jsTrim ("@" ++ u) = String.mk ('@' :: t) := by
      rw [jsTrim, hdata, ht]
    show (if isIntegerString (jsTrim ("@" ++ u)) then _ else _) = _
    rw [htrim]
    have hint : isIntegerString (String.mk ('@' :: t)) = false := isIntegerChars_at t
    rw [hint]
    simp

/-! ### Flood-wait matcher lemmas -/

theorem map_id_of {f : Char → Char} : ∀ (l : List Char), (∀ c ∈ l, f c = c) → l.map f = l := by
  intro l h
  induction l with
  | nil => rfl
  | cons c cs ih =>
      rw [List.map_cons, h c (List.mem_cons_self _ _),
        ih (fun x hx => h x (List.mem_cons_of_mem _ hx))]

theorem isPrefixOf_append_self : ∀ (l t : List Char), l.isPrefixOf (l ++ t) = true := by
  intro l t
  induction l with
  | nil => simp
  | cons c cs ih => simpa [List.isPrefixOf] using ih

theorem digitSpan_append_nondigit (D S : List Char)
    (hD : ∀ c ∈ D, c.isDigit = true)
    (hS : ∀ c, S.head? = some c → c.isDigit = false) :
    digitSpan (D ++ S) = (D, S) := by
  induction D with
  | nil =>
      cases S with
      | nil => rfl
      | cons c cs =>
          simp [digitSpan, hS c rfl]
  | cons c D ih =>
      simp [digitSpan, hD c (List.mem_cons_self _ _),
        ih (fun x hx => hD x (List.mem_cons_of_mem _ hx))]

theorem matchFloodAt_construct (s : Nat) :
    matchFloodAt ("wait of ".data ++ ((decimalStringOfNat s).data
      ++ " seconds is required".data)) = some s := by
  obtain ⟨hne, hspec, hval⟩ := decimalStringOfNat_spec s
  have hD : ∀ c ∈ (decimalStringOfNat s).data, c.isDigit = true :=
    fun c hc => (hspec c hc).1
  have hS : ∀ c, (" seconds is required".data).head? = some c → c.isDigit = false := by
    intro c hc
    rw [show (" seconds is required".data).head? = some ' ' from rfl] at hc
    injection hc with h
    subst h
    decide
  have hempty : (decimalStringOfNat s).data.isEmpty = false := by
    cases hcase : (decimalStringOfNat s).data with
    | nil => exact absurd hcase hne
    | cons c cs => rfl
  have hself : (" seconds is required".data).isPrefixOf (" seconds is required".data) = true := by
    simpa using isPrefixOf_append_self " seconds is required".data []
  unfold matchFloodAt
  rw [if_pos (isPrefixOf_append_self _ _)]
  rw [List.drop_left' (by rfl :
    ("wait of ".data).length = 8)]
  dsimp only
  rw [digitSpan_append_nondigit _ _ hD hS]
  dsimp only
  rw [if_neg (by simp [hempty])]
  rw [if_pos hself, hval]

theorem findFlood_of_head (l : List Char) (s : Nat) (hne : l ≠ [])
    (hm : matchFloodAt l = some s) : findFlood l = some s := by
  cases l with
  | nil => exact absurd rfl hne
  | cons c r =>
      rw [findFlood, hm]

theorem floodWaitSeconds_construct (s : Nat) :
    floodWaitSeconds ("wait of " ++ decimalStringOfNat s ++ " seconds is required")
      = some s := by
  have hlower : ∀ c ∈ (decimalStringOfNat s).data, lowerChar c = c :=
    fun c hc => ((decimalStringOfNat_spec s).2.1 c hc).2.1
  have hdata : ("wait of " ++ decimalStringOfNat s ++ " seconds is required").data
      = "wait of ".data ++ ((decimalStringOfNat s).data ++ " seconds is required".data) := by
    rw [String.data_append, String.data_append, List.append_assoc]
  rw [floodWaitSeconds, hdata]
  rw [List.map_append, List.map_append]
  rw [show ("wait of ".data).map lowerChar = "wait of ".data from by decide]
  rw [show (" seconds is required".data).map lowerChar = " seconds is required".data from by decide]
  rw [map_id_of _ hlower]
  refine findFlood_of_head _ s ?_ (matchFloodAt_construct s)
  simp

set_option maxRecDepth 2000 in
/-- Claim C2 amended: the worker's catch block recognizes as a flood
wait exactly the messages matched by the single case-insensitive
pattern "wait of (N) seconds is required" — such a job is set to
status pending with error "Rate limited, waiting Ns" — while every
other error message, including the bare "FLOOD_WAIT_N" form named by
the claim, sets status error with the error's own message. -/
theorem floodwait_classification_amended (job : Job) (now : Nat) :
    (∀ s : Nat,
       handleJobError job ("wait of " ++ decimalStringOfNat s ++ " seconds is required") now
         = { job with status := JobStatus.pending,
                      error := some ("Rate limited, waiting " ++ decimalStringOfNat s ++ "s"),
                      updated_at := now }) ∧
    (∀ msg : String, floodWaitSeconds msg = none →
       handleJobError job msg now
         = { job with status := JobStatus.error, error := some msg, updated_at := now }) := by
  constructor
  · intro s
    rw [handleJobError, floodWaitSeconds_construct s]
  · intro msg hm
    rw [handleJobError, hm]

/-- Witness for the amended C2 at concrete inputs. -/
theorem floodwait_classification_amended_witness :
    handleJobError dummyJob ("wait of " ++ decimalStringOfNat 3 ++ " seconds is required") 7
      = { dummyJob with status := JobStatus.pending,
                        error := some ("Rate limited, waiting " ++ decimalStringOfNat 3 ++ "s"),
                        updated_at := 7 } ∧
    handleJobError dummyJob "FLOOD_WAIT_9" 7
      = { dummyJob with status := JobStatus.error, error := some "FLOOD_WAIT_9",
                        updated_at := 7 } :=
  ⟨(floodwait_classification_amended dummyJob 7).1 3,
   (floodwait_classification_amended dummyJob 7).2 "FLOOD_WAIT_9" (by decide)⟩

/-! ### Cursor monotonicity (claim C3) -/

theorem syncNewer_last_ge (g : Gateway) (bs : Nat) (db : List MessageRecord) (job : Job) :
    job.last_message_id ≤ (syncNewerMessages g bs db job).2.lastMessageId := by
  unfold syncNewerMessages
  dsimp only
  split
  · exact le_refl _
  · next hne =>
      refine le_of_lt (of_decide_eq_true
        ((List.mem_filter.mp ((List.mem_insertionSort _).mp (List.getLast_mem hne))).2))

theorem updOldest_le {w v i : Int} (hw : w ≤ v) (hi : i ≤ v) :
    ∃ w2, updOldest (some w) i = some w2 ∧ w2 ≤ v := by
  unfold updOldest
  by_cases h0 : w = 0
  · exact ⟨i, by simp [h0], hi⟩
  · exact ⟨min w i, by simp [h0], le_trans (min_le_left _ _) hw⟩

theorem foldl_updOldest_le :
    ∀ (l : List SerializedMessage) (o : Option Int) (w v : Int),
    o = some w → w ≤ v → (∀ m ∈ l, m.id ≤ v) →
    ∃ w2, l.foldl (fun o m => updOldest o m.id) o = some w2 ∧ w2 ≤ v := by
  intro l
  induction l with
  | nil =>
      intro o w v ho hw _
      exact ⟨w, by simpa using ho, hw⟩
  | cons m l ih =>
      intro o w v ho hw hm
      subst ho
      obtain ⟨w1, h1, hle1⟩ := updOldest_le hw (hm m (List.mem_cons_self _ _))
      rw [List.foldl_cons, h1]
      exact ih (some w1) w1 v rfl hle1 (fun x hx => hm x (List.mem_cons_of_mem _ hx))

theorem chunkLowest_aux (v : Int) :
    ∀ (l : List SerializedMessage) (o : Option Int),
    (∀ m ∈ l, m.id ≤ v) → (∀ y, o = some y → y ≤ v) →
    ∀ x, List.foldl (fun o m => match o with
      | none => some m.id
      | some x2 => some (min x2 m.id)) o l = some x → x ≤ v := by
  intro l
  induction l with
  | nil =>
      intro o _ ho x hx
      exact ho x hx
  | cons m l ih =>
      intro o hm ho x hx
      rw [List.foldl_cons] at hx
      refine ih _ (fun y hy => hm y (List.mem_cons_of_mem _ hy)) ?_ x hx
      intro y hy
      cases o with
      | none =>
          have : m.id = y := by simpa using hy
          exact this ▸ hm m (List.mem_cons_self _ _)
      | some x2 =>
          have : min x2 m.id = y := by simpa using hy
          exact this ▸ le_trans (min_le_right _ _) (hm m (List.mem_cons_self _ _))

theorem chunkLowest_le (v : Int) (chunk : List SerializedMessage)
    (hm : ∀ m ∈ chunk, m.id ≤ v) :
    ∀ x, chunkLowest chunk = some x → x ≤ v :=
  chunkLowest_aux v chunk none hm (fun y hy => by simp at hy)

theorem fetchOlder_mem_lt (g : Gateway) (lim : Nat) (off : Int)
    (m : SerializedMessage) (hm : m ∈ fetchOlder g lim off) : m.id < off := by
  unfold fetchOlder at hm
  exact of_decide_eq_true (List.mem_filter.mp (List.mem_of_mem_take hm)).2

theorem backfillLoop_oldest (g : Gateway) (bs : Nat) (cid : String) (target v : Int) :
    ∀ (fuel : Nat) (s : BFState),
    (∃ w, s.currentOldest = some w ∧ w ≤ v) → s.nextOffsetId ≤ v →
    ∃ w2, (backfillLoop g bs cid target fuel s).currentOldest = some w2 ∧ w2 ≤ v := by
  intro fuel
  induction fuel with
  | zero =>
      intro s h1 _
      simpa [backfillLoop] using h1
  | succ f ih =>
      intro s h1 h2
      rw [backfillLoop]
      split
      · split
        · exact h1
        · dsimp only
          split
          · exact h1
          · have hchunkle : ∀ m ∈ fetchOlder g (min (bs : Int) (target - s.total)).toNat
                s.nextOffsetId, m.id ≤ v :=
              fun m hm => le_of_lt (lt_of_lt_of_le (fetchOlder_mem_lt _ _ _ m hm) h2)
            obtain ⟨w, hw, hwle⟩ := h1
            obtain ⟨w2, hw2, hw2le⟩ :=
              foldl_updOldest_le _ s.currentOldest w v hw hwle hchunkle
            split
            · exact ⟨w2, hw2, hw2le⟩
            · refine ih _ ⟨w2, hw2, hw2le⟩ ?_
              dsimp only
              cases hcl : chunkLowest (fetchOlder g (min (bs : Int) (target - s.total)).toNat
                  s.nextOffsetId) with
              | none => simpa [hcl] using h2
              | some x =>
                  simpa [hcl] using chunkLowest_le v _ hchunkle x hcl
      · exact h1

theorem backfillHistory_oldest (g : Gateway) (bs bfFuel : Nat) (db : List MessageRecord)
    (job : Job) (cc tc newest v : Int) (hv : job.oldest_message_id = some v) :
    ∃ w, (backfillHistory g bs bfFuel db job cc tc newest).2.1.oldestMessageId = some w ∧
      w ≤ v := by
  unfold backfillHistory
  split
  · exact ⟨v, by simp [hv], le_refl v⟩
  · dsimp only
    refine backfillLoop_oldest g bs job.channel_id tc v bfFuel _ ⟨v, by simp [hv], le_refl v⟩ ?_
    simp [hv]

theorem jsNullish_some_left (a b : Option Int) (w : Int) (h : a = some w) :
    jsNullish a b = some w := by
  rw [h]
  rfl

/-- Claim C3: job cursor monotonicity.  For every gateway behavior,
database state and job row, a successful (non-throwing) `_processJob`
run persists a `last_message_id` that is ≥ its value before the run,
and — whenever `oldest_message_id` was set before the run — an
`oldest_message_id` that is still set and ≤ its previous value.  (The
error path, `handleJobError`, rewrites only status/error, so cursors
are untouched there.) -/
theorem job_cursor_monotonic (g : Gateway) (batchSize bfFuel now : Nat)
    (db : List MessageRecord) (job : Job) :
    job.last_message_id ≤ (processJob g batchSize bfFuel now db job).job.last_message_id ∧
    (∀ v, job.oldest_message_id = some v →
       ∃ w, (processJob g batchSize bfFuel now db job).job.oldest_message_id = some w ∧
         w ≤ v) := by
  constructor
  · unfold processJob
    dsimp only
    exact syncNewer_last_ge g batchSize db _
  · intro v hv
    unfold processJob
    dsimp only
    obtain ⟨w, hw, hwle⟩ := backfillHistory_oldest g batchSize bfFuel
      (syncNewerMessages g batchSize db
        { job with status := JobStatus.in_progress, updated_at := now }).1
      { job with status := JobStatus.in_progress, updated_at := now }
      (syncNewerMessages g batchSize db
        { job with status := JobStatus.in_progress, updated_at := now }).2.totalMessages
      (syncNewerMessages g batchSize db
        { job with status := JobStatus.in_progress, updated_at := now }).2.targetCount
      (syncNewerMessages g batchSize db
        { job with status := JobStatus.in_progress, updated_at := now }).2.lastMessageId
      v hv
    exact ⟨w, jsNullish_some_left _ _ _ hw, hwle⟩

/-- Witness for C3 at a concrete gateway and job. -/
theorem job_cursor_monotonic_witness :
    c3Job.last_message_id ≤ (processJob c3Gateway 2 10 0 [] c3Job).job.last_message_id ∧
    ∃ w, (processJob c3Gateway 2 10 0 [] c3Job).job.oldest_message_id = some w ∧ w ≤ 5 :=
  ⟨(job_cursor_monotonic c3Gateway 2 10 0 [] c3Job).1,
   (job_cursor_monotonic c3Gateway 2 10 0 [] c3Job).2 5 rfl⟩

/-! ### Single-writer worker (claim C8) -/

def WorkerInv (c : WorkerConfig) : Prop :=
  (∀ i, c.phase i = TaskPhase.looping → c.processing = true) ∧
  (∀ i j, c.phase i = TaskPhase.looping → c.phase j = TaskPhase.looping → i = j) ∧
  (∀ i, c.guarded i = true → c.phase i = TaskPhase.done ∧ c.reads i = 0) ∧
  (∀ i, c.phase i = TaskPhase.notStarted → c.reads i = 0)

theorem workerInv_init : WorkerInv workerInit := by
  refine ⟨?_, ?_, ?_, ?_⟩ <;> intro i <;> simp [workerInit]

theorem workerInv_step {c c2 : WorkerConfig} (h : WorkerInv c) (hs : WorkerStep c c2) :
    WorkerInv c2 := by
  obtain ⟨hproc, huniq, hguard, hreads⟩ := h
  cases hs with
  | enterRun i h1 h2 h3 =>
      refine ⟨fun k _ => rfl, ?_, ?_, ?_⟩
      · intro k l hk hl
        dsimp only at hk hl
        by_cases hki : k = i
        · by_cases hli : l = i
          · rw [hki, hli]
          · rw [Function.update_noteq hli] at hl
            exact absurd (hproc l hl) (by rw [h2]; simp)
        · rw [Function.update_noteq hki] at hk
          exact absurd (hproc k hk) (by rw [h2]; simp)
      · intro k hk
        dsimp only at hk ⊢
        obtain ⟨hph, hrd⟩ := hguard k hk
        constructor
        · have hki : k ≠ i := fun he => by rw [he, h1] at hph; exact absurd hph (by decide)
          rw [Function.update_noteq hki]
          exact hph
        · exact hrd
      · intro k hk
        dsimp only at hk ⊢
        by_cases hki : k = i
        · rw [hki] at hk
          rw [Function.update_same] at hk
          exact absurd hk (by decide)
        · rw [Function.update_noteq hki] at hk
          exact hreads k hk
  | enterGuarded i h1 h2 =>
      refine ⟨?_, ?_, ?_, ?_⟩
      · intro k hk
        dsimp only at hk
        by_cases hki : k = i
        · rw [hki, Function.update_same] at hk
          exact absurd hk (by decide)
        · rw [Function.update_noteq hki] at hk
          exact hproc k hk
      · intro k l hk hl
        dsimp only at hk hl
        by_cases hki : k = i
        · rw [hki, Function.update_same] at hk
          exact absurd hk (by decide)
        · by_cases hli : l = i
          · rw [hli, Function.update_same] at hl
            exact absurd hl (by decide)
          · rw [Function.update_noteq hki] at hk
            rw [Function.update_noteq hli] at hl
            exact huniq k l hk hl
      · intro k hk
        dsimp only at hk ⊢
        by_cases hki : k = i
        · subst hki
          exact ⟨Function.update_same _ _ _, hreads k h1⟩
        · rw [Function.update_noteq hki] at hk
          obtain ⟨hph, hrd⟩ := hguard k hk
          refine ⟨?_, hrd⟩
          rw [Function.update_noteq hki]
          exact hph
      · intro k hk
        dsimp only at hk ⊢
        by_cases hki : k = i
        · rw [hki, Function.update_same] at hk
          exact absurd hk (by decide)
        · rw [Function.update_noteq hki] at hk
          exact hreads k hk
  | readQueue i h1 =>
      refine ⟨hproc, huniq, ?_, ?_⟩
      · intro k hk
        obtain ⟨hph, hrd⟩ := hguard k hk
        refine ⟨hph, ?_⟩
        have hki : k ≠ i := fun he => by rw [he, h1] at hph; exact absurd hph (by decide)
        dsimp only
        rw [Function.update_noteq hki]
        exact hrd
      · intro k hk
        have hki : k ≠ i := fun he => by rw [he, h1] at hk; exact absurd hk (by decide)
        dsimp only
        rw [Function.update_noteq hki]
        exact hreads k hk
  | exitLoop i h1 =>
      refine ⟨?_, ?_, ?_, ?_⟩
      · intro k hk
        dsimp only at hk
        by_cases hki : k = i
        · rw [hki, Function.update_same] at hk
          exact absurd hk (by decide)
        · rw [Function.update_noteq hki] at hk
          exact absurd (huniq k i hk h1) hki
      · intro k l hk hl
        dsimp only at hk hl
        by_cases hki : k = i
        · rw [hki, Function.update_same] at hk
          exact absurd hk (by decide)
        · rw [Function.update_noteq hki] at hk
          exact absurd (huniq k i hk h1) hki
      · intro k hk
        obtain ⟨hph, hrd⟩ := hguard k hk
        refine ⟨?_, hrd⟩
        dsimp only
        by_cases hki : k = i
        · rw [hki, Function.update_same]
        · rw [Function.update_noteq hki]
          exact hph
      · intro k hk
        dsimp only at hk ⊢
        by_cases hki : k = i
        · rw [hki, Function.update_same] at hk
          exact absurd hk (by decide)
        · rw [Function.update_noteq hki] at hk
          exact hreads k hk
  | requestStop =>
      exact ⟨hproc, huniq, hguard, hreads⟩

theorem workerInv_reachable {c : WorkerConfig} (h : WorkerReachable c) : WorkerInv c := by
  induction h with
  | refl => exact workerInv_init
  | tail _ hstep ih => exact workerInv_step ih hstep

/-- Claim C8: single-writer worker.  In every configuration reachable
from the initial state by any interleaving of concurrent
`processQueue` invocations (the `resume()` entry points), at most one
task is inside the worker loop — hence at most one `_processJob` call
is executing — and every invocation that hit the `processing` /
`stopRequested` guard finished without ever reading the job queue. -/
theorem single_writer_worker (c : WorkerConfig) (h : WorkerReachable c) :
    (∀ i j, c.phase i = TaskPhase.looping → c.phase j = TaskPhase.looping → i = j) ∧
    (∀ i, c.guarded i = true → c.phase i = TaskPhase.done ∧ c.reads i = 0) :=
  ⟨(workerInv_reachable h).2.1, (workerInv_reachable h).2.2.1⟩

/-- Witness for C8: a concrete two-task interleaving (task 0 enters and
holds the flag, task 1 hits the guard) reaches `c8Config2`, where the
guarded task 1 is done and never read the queue. -/
theorem single_writer_worker_witness :
    c8Config2.phase 1 = TaskPhase.done ∧ c8Config2.reads 1 = 0 :=
  (single_writer_worker c8Config2
    (Relation.ReflTransGen.tail
      (Relation.ReflTransGen.tail Relation.ReflTransGen.refl
        (WorkerStep.enterRun workerInit 0 rfl rfl rfl))
      (WorkerStep.enterGuarded c8Config1 1 rfl (Or.inl rfl)))).2 1 rfl

/-- Claim C9 amended: with a filterPattern the tool fails (no result
payload) when the engine rejects the pattern, and otherwise returns
peerTitle, totalFetched = the number of messages the gateway yielded,
messages = exactly the formatted messages with non-empty text matching
the regex, and returned = their number.  (Messages with empty text are
dropped by the truthiness guard even when the regex matches the empty
string — the correction forced by the counterexample.) -/
theorem getChannelMessages_filter_amended
    (compile : String → Except String (String → Bool))
    (title : String) (fetched : List SerializedMessage) (p : String) :
    (∀ e, compile p = Except.error e →
       getChannelMessagesTool compile title fetched (some p)
         = ToolOutcome.failure ("Invalid filterPattern: " ++ e)) ∧
    (∀ matcher, compile p = Except.ok matcher →
       getChannelMessagesTool compile title fetched (some p)
         = ToolOutcome.ok title fetched.length
             ((fetched.map formatMessage).filter
               (fun fm => !(fm.text == "") && matcher fm.text)).length
             ((fetched.map formatMessage).filter
               (fun fm => !(fm.text == "") && matcher fm.text)) ∧
       (∀ fm, fm ∈ (fetched.map formatMessage).filter
                (fun fm => !(fm.text == "") && matcher fm.text)
          ↔ fm ∈ fetched.map formatMessage ∧ fm.text ≠ "" ∧ matcher fm.text = true)) := by
  constructor
  · intro e he
    rw [getChannelMessagesTool, he]
  · intro matcher hm
    constructor
    · rw [getChannelMessagesTool, hm]
    · intro fm
      rw [List.mem_filter]
      simp

/-- Witness for the amended C9: the claim's concrete scenario.  The
engine instance maps the pattern to the matcher "contains a digit"
(what the JS engine's test does for that regex on these texts); of the
three fetched texts exactly "abc123" matches, so returned = 1. -/
theorem getChannelMessages_filter_amended_witness :
    getChannelMessagesTool c9Compile "Chan" c9Fetched (some "\\d+")
      = ToolOutcome.ok "Chan" 3 1
          [{ id := 2, date := "unknown", text := "abc123", from_id := "u" }] := by
  have h := ((getChannelMessages_filter_amended c9Compile "Chan" c9Fetched "\\d+").2
    (fun t => t.data.any Char.isDigit) rfl).1
  rw [h]
  decide

end TelegramMcp
